import Mathlib

/-!
Verification development for the RecommenderSystem-UI frontend.

The definitions below are shallow embeddings of the TypeScript source:
multipart upload orchestration (frontend/lib/api/index.ts,
multipartUploadDataset), training-page polling and backoff
(frontend/app/training/page.tsx), the axios request interceptor
(frontend/lib/api/client.ts), and the job-state normalization helpers
(toTrainingJobState, normalizeProgressPct).  JavaScript machine numbers
are modelled as exact rationals / naturals, network effects as explicit
environments of server responses, and each fetch issued by the code is
recorded in a request trace.
-/

namespace RecUI

/-! ## JavaScript string helpers used by the upload code -/

/-- Models the JavaScript String.prototype.trim used by the source. -/
def jsTrim (s : String) : String :=
  ((s.toList.dropWhile Char.isWhitespace).reverse.dropWhile Char.isWhitespace).reverse.asString

/-- Models the regex replace of a leading "W/" marker: etagRaw.replace of W-slash. -/
def stripWeakTag : List Char → List Char
  | 'W' :: '/' :: rest => rest
  | cs => cs

/-- Removes one leading double quote, as the anchored regex does. -/
def stripLeadingQuote : List Char → List Char
  | '"' :: rest => rest
  | cs => cs

/-- Removes one leading and one trailing double quote, matching the global
anchored regex in the source (leading match is consumed first). -/
def stripQuotes (cs : List Char) : List Char :=
  ((stripLeadingQuote cs).reverse |> stripLeadingQuote).reverse

/-- ETag normalization from multipartUploadDataset:
etagRaw.replace leading W-slash, then surrounding quotes, then trim. -/
def normalizeEtag (raw : String) : String :=
  jsTrim (stripQuotes (stripWeakTag raw.toList)).asString

/-! ## Multipart upload data model (frontend/lib/api/index.ts) -/

/-- Response of the multipart init endpoint (type MultipartInitResponse).
part_size_bytes is an optional number; none models a value for which
Number.isFinite is false (absent field). -/
structure MultipartInitResponse where
  dataset_id : String
  upload_id : String
  part_size_bytes : Option Int
deriving DecidableEq, Repr

/-- One collected part (type MultipartUploadedPart). -/
structure MultipartUploadedPart where
  part_number : Nat
  etag : String
deriving DecidableEq, Repr

/-- Outcome of the PUT of one chunk to the presigned URL: HTTP ok flag and
the raw etag response header (none models a missing header). -/
structure PutResponse where
  ok : Bool
  etagHeader : Option String
deriving DecidableEq, Repr

/-- One HTTP request issued by multipartUploadDataset, in issue order. -/
inductive UploadReq where
  | init
  | presign (datasetId uploadId : String) (partNumber : Nat)
  | putPart (partNumber : Nat) (startByte endByte : Nat)
  | complete (datasetId uploadId : String) (parts : List MultipartUploadedPart)
deriving DecidableEq, Repr

/-- Environment of server responses for one run of multipartUploadDataset.
initResp is none when the init fetch returns a non-ok status (fetchJson
throws); presignOk and put give the per-part responses; completeOk is the
status of the final complete request. -/
structure UploadEnv where
  initResp : Option MultipartInitResponse
  presignOk : Nat → Bool
  put : Nat → PutResponse
  completeOk : Bool

/-- Effective part size: max of 5 MiB and the server value when that is a
finite number, 16 MiB otherwise (Number.isFinite branch in the source). -/
def partSizeOf (r : MultipartInitResponse) : Nat :=
  match r.part_size_bytes with
  | some n => (max (5 * 1024 * 1024 : Int) n).toNat
  | none => 16 * 1024 * 1024

/-- Math.ceil of a quotient of naturals, as used for totalParts. -/
def jsCeilDiv (a b : Nat) : Nat := (a + b - 1) / b

/-- Start offset of a part: (partNumber - 1) * partSize. -/
def partStart (partSize n : Nat) : Nat := (n - 1) * partSize

/-- End offset of a part: Math.min(start + partSize, totalBytes). -/
def partStop (partSize totalBytes n : Nat) : Nat :=
  min (partStart partSize n + partSize) totalBytes

/-- Normalized etag recorded for part n in environment env
(headers.get of etag, empty-string default, then normalization). -/
def envEtag (env : UploadEnv) (n : Nat) : String :=
  normalizeEtag ((env.put n).etagHeader.getD "")

/-- The per-part loop of multipartUploadDataset over the given list of part
numbers, threading the cumulative uploaded byte count acc.  Returns the
requests issued, the onProgressBytes reports, and either the collected
parts or the thrown error message. -/
def runParts (env : UploadEnv) (d u : String) (partSize totalBytes : Nat) :
    Nat → List Nat → List UploadReq × List Nat × Except String (List MultipartUploadedPart)
  | _, [] => ([], [], Except.ok [])
  | acc, n :: rest =>
    if env.presignOk n then
      let startByte := (n - 1) * partSize
      let endByte := min (startByte + partSize) totalBytes
      if (env.put n).ok then
        let etag := normalizeEtag ((env.put n).etagHeader.getD "")
        if etag = "" then
          ([UploadReq.presign d u n, UploadReq.putPart n startByte endByte], [],
            Except.error ("Missing ETag for part " ++ toString n))
        else
          let acc2 := acc + (endByte - startByte)
          let r := runParts env d u partSize totalBytes acc2 rest
          (UploadReq.presign d u n :: UploadReq.putPart n startByte endByte :: r.1,
            acc2 :: r.2.1,
            Except.map (fun ps => { part_number := n, etag := etag } :: ps) r.2.2)
      else
        ([UploadReq.presign d u n, UploadReq.putPart n startByte endByte], [],
          Except.error ("Part upload failed (part " ++ toString n ++ ")"))
    else
      ([UploadReq.presign d u n], [], Except.error ("Presign failed (part " ++ toString n ++ ")"))

/-- Stable insertion of a part before the first strictly larger part
number; models the comparator a.part_number - b.part_number. -/
def insertByPartNumber (p : MultipartUploadedPart) :
    List MultipartUploadedPart → List MultipartUploadedPart
  | [] => [p]
  | q :: rest =>
    if p.part_number < q.part_number then p :: q :: rest
    else q :: insertByPartNumber p rest

/-- Sort of the collected parts by part_number, as the spread-and-sort in
the complete request body. -/
def sortByPartNumber : List MultipartUploadedPart → List MultipartUploadedPart
  | [] => []
  | p :: rest => insertByPartNumber p (sortByPartNumber rest)

/-- Result of one run: the request trace, the onProgressBytes report
values in order, and either the thrown error or the upload_id together
with the parts list sent in the complete body. -/
structure UploadRun where
  trace : List UploadReq
  reports : List Nat
  result : Except String (String × List MultipartUploadedPart)

/-- Shallow embedding of multipartUploadDataset (lines 188-293 of
frontend/lib/api/index.ts) for a file of fileSize bytes against the
server environment env. -/
def multipartUploadDataset (env : UploadEnv) (fileSize : Nat) : UploadRun :=
  match env.initResp with
  | none => ⟨[UploadReq.init], [], Except.error "Multipart init failed"⟩
  | some resp =>
    let datasetId := resp.dataset_id
    let uploadId := resp.upload_id
    let partSize := partSizeOf resp
    if datasetId = "" ∨ uploadId = "" then
      ⟨[UploadReq.init], [], Except.error "Multipart init returned invalid dataset_id/upload_id"⟩
    else
      let totalBytes := fileSize
      let totalParts := max 1 (jsCeilDiv totalBytes partSize)
      let r := runParts env datasetId uploadId partSize totalBytes 0 (List.range' 1 totalParts)
      match r.2.2 with
      | Except.error e => ⟨UploadReq.init :: r.1, 0 :: r.2.1, Except.error e⟩
      | Except.ok parts =>
        let sorted := sortByPartNumber parts
        let trace := UploadReq.init :: r.1 ++ [UploadReq.complete datasetId uploadId sorted]
        if env.completeOk then
          ⟨trace, 0 :: r.2.1, Except.ok (uploadId, sorted)⟩
        else
          ⟨trace, 0 :: r.2.1, Except.error "Multipart complete failed"⟩

/-- Part size actually used by a run in environment env. -/
def envPartSize (env : UploadEnv) : Nat :=
  match env.initResp with
  | some r => partSizeOf r
  | none => 16 * 1024 * 1024

/-- Number of parts the run uploads for a file of S bytes. -/
def totalPartsOf (env : UploadEnv) (S : Nat) : Nat :=
  max 1 (jsCeilDiv S (envPartSize env))

/-- Whether a request is the complete request. -/
def isCompleteReq : UploadReq → Bool
  | UploadReq.complete _ _ _ => true
  | _ => false

/-- Whether a request is a part PUT. -/
def isPutPart : UploadReq → Bool
  | UploadReq.putPart _ _ _ => true
  | _ => false

/-- Whether the complete request was issued during the run. -/
def sentComplete (run : UploadRun) : Bool := run.trace.any isCompleteReq

/-- Whether the run ended in a thrown error. -/
def resultIsError (run : UploadRun) : Bool :=
  match run.result with
  | Except.error _ => true
  | Except.ok _ => false

/-- Whether part n's PUT came back ok with a non-empty normalized etag. -/
def partUploadOk (env : UploadEnv) (n : Nat) : Bool :=
  (env.put n).ok && !(envEtag env n == "")

/-- Byte length of part n's chunk. -/
def chunkLen (partSize totalBytes n : Nat) : Nat :=
  partStop partSize totalBytes n - partStart partSize n

/-- Cumulative onProgressBytes values produced by the loop, starting from
accumulated count acc. -/
def cumReports (partSize totalBytes : Nat) : Nat → List Nat → List Nat
  | _, [] => []
  | acc, n :: rest =>
    let acc2 := acc + chunkLen partSize totalBytes n
    acc2 :: cumReports partSize totalBytes acc2 rest

/-- Spec-side description of the collected parts list (one entry per part
number with its recorded etag), to be compared with the run. -/
def specParts (env : UploadEnv) (S : Nat) : List MultipartUploadedPart :=
  (List.range' 1 (totalPartsOf env S)).map
    (fun n => { part_number := n, etag := envEtag env n })

/-- Spec-side description of the full request trace of a successful run,
to be compared with the run. -/
def specTrace (env : UploadEnv) (S : Nat) (d u : String) : List UploadReq :=
  UploadReq.init ::
    ((List.range' 1 (totalPartsOf env S)).flatMap
      (fun n => [UploadReq.presign d u n,
                 UploadReq.putPart n (partStart (envPartSize env) n)
                   (partStop (envPartSize env) S n)])
    ++ [UploadReq.complete d u (specParts env S)])

/-- Concrete environment in which every request succeeds (used to witness
the theorems below); the server asks for 5 MiB parts. -/
def envAllOk : UploadEnv where
  initResp := some ⟨"ds", "up", some (5 * 1024 * 1024)⟩
  presignOk := fun _ => true
  put := fun _ => ⟨true, some "\"abc\""⟩
  completeOk := true

/-- Concrete environment whose init response has an empty dataset_id. -/
def envBadId : UploadEnv where
  initResp := some ⟨"", "u", none⟩
  presignOk := fun _ => true
  put := fun _ => ⟨true, some "\"abc\""⟩
  completeOk := true

/-- Concrete environment in which the PUT of part 2 fails. -/
def envBadPut : UploadEnv where
  initResp := some ⟨"ds", "up", some (5 * 1024 * 1024)⟩
  presignOk := fun _ => true
  put := fun n => if n = 2 then ⟨false, none⟩ else ⟨true, some "\"abc\""⟩
  completeOk := true

/-- Concrete file size of 11 MiB, giving three 5 MiB parts. -/
def sizeW : Nat := 11 * 1024 * 1024

/-! ## Training page polling model (frontend/app/training/page.tsx) -/

/-- POLL_BASE_MS from the training page. -/
def POLL_BASE_MS : Nat := 3000

/-- POLL_MAX_MS from the training page. -/
def POLL_MAX_MS : Nat := 15000

/-- Reason passed to loadJobState (type LoadStateReason). -/
inductive LoadStateReason where
  | mount
  | poll
  | focus
  | start
deriving DecidableEq, Repr

/-- Job state tracked by the UI (interface TrainingJobState in types).
Numbers are modelled as exact rationals, nullable/optional fields as
Option. -/
structure TrainingJobState where
  job_id : String
  status : Option String
  progress_status : Option String
  stage : Option String
  epoch : Option ℚ
  total_epochs : Option ℚ
  progress_pct : Option ℚ
  started_at : Option String
  completed_at : Option String
  duration_seconds : Option ℚ
  is_terminal : Bool
  error : Option String
deriving DecidableEq, Repr

/-- Outcome of one loadJobState fetch: success with the decoded state, an
axios error carrying an HTTP response status, an axios error without a
response (network failure), or a non-axios error. -/
inductive LoadOutcome where
  | success (st : TrainingJobState)
  | httpError (status : Nat)
  | networkError
  | otherError
deriving DecidableEq, Repr

/-- The backoff update applied by loadJobState:
prev maps to min POLL_MAX_MS (max POLL_BASE_MS (prev * 2)). -/
def backoffDelay (prev : Nat) : Nat :=
  min POLL_MAX_MS (max POLL_BASE_MS (2 * prev))

/-- New value of the pollDelayMs state after one loadJobState call, per the
branches of its catch handler: success resets to POLL_BASE_MS; 403/404 and
401 leave the delay unchanged; a network error always backs off; any other
failure backs off only when the reason is poll. -/
def nextPollDelay (reason : LoadStateReason) (outcome : LoadOutcome) (prev : Nat) : Nat :=
  match outcome with
  | LoadOutcome.success _ => POLL_BASE_MS
  | LoadOutcome.httpError code =>
    if code = 403 ∨ code = 404 then prev
    else if code = 401 then prev
    else if reason = LoadStateReason.poll then backoffDelay prev else prev
  | LoadOutcome.networkError => backoffDelay prev
  | LoadOutcome.otherError =>
    if reason = LoadStateReason.poll then backoffDelay prev else prev

/-- Message shown when the job was not found or access is denied. -/
def jobNotFoundMessage : String := "کار آموزشی یافت نشد یا دسترسی به آن ندارید."

/-- Message shown when the session is expired (401). -/
def sessionExpiredMessage : String := "نشست شما منقضی شده است. لطفاً دوباره وارد شوید."

/-- Message shown on a network failure while polling. -/
def networkRetryMessage : String := "مشکل شبکه در دریافت وضعیت آموزش. تلاش مجدد انجام می‌شود..."

/-- Fallback message for other failures. -/
def genericStateMessage : String := "خطا در دریافت وضعیت آموزش"

/-- React state of the training page that loadJobState touches. -/
structure TrainingPageState where
  persistedJobId : Option String
  trainingState : Option TrainingJobState
  stateMessage : String
  pollDelayMs : Nat
deriving DecidableEq, Repr

/-- State transition of one loadJobState call (lines 148-205 of
frontend/app/training/page.tsx).  On success the fetched state is stored
and the delay is reset; on 403/404 the persisted job id is cleared (also
removed from localStorage) and the tracked state dropped; on 401 only the
message changes; on a network error the delay backs off; on any other
failure the delay backs off when polling. -/
def loadJobStateStep (jobId : String) (reason : LoadStateReason) (outcome : LoadOutcome)
    (s : TrainingPageState) : TrainingPageState :=
  match outcome with
  | LoadOutcome.success st =>
    { persistedJobId := some jobId, trainingState := some st,
      stateMessage := "", pollDelayMs := nextPollDelay reason outcome s.pollDelayMs }
  | LoadOutcome.httpError code =>
    if code = 403 ∨ code = 404 then
      { persistedJobId := none, trainingState := none,
        stateMessage := jobNotFoundMessage, pollDelayMs := s.pollDelayMs }
    else if code = 401 then
      { s with stateMessage := sessionExpiredMessage }
    else
      { s with
          stateMessage := genericStateMessage,
          pollDelayMs := nextPollDelay reason outcome s.pollDelayMs }
  | LoadOutcome.networkError =>
    { s with
        stateMessage := networkRetryMessage,
        pollDelayMs := nextPollDelay reason outcome s.pollDelayMs }
  | LoadOutcome.otherError =>
    { s with
        stateMessage := genericStateMessage,
        pollDelayMs := nextPollDelay reason outcome s.pollDelayMs }

/-- Guard of the polling effect (lines 234-244): a new timeout is armed
unless the persisted job id is falsy, there is no training state, or the
state is terminal. -/
def pollEffectArms (persistedJobId : Option String)
    (trainingState : Option TrainingJobState) : Bool :=
  match persistedJobId, trainingState with
  | some jid, some st => if jid = "" then false else !st.is_terminal
  | _, _ => false

/-- Delays reachable by the pollDelayMs state, which starts at
POLL_BASE_MS and is only ever updated through nextPollDelay. -/
inductive ReachableDelay : Nat → Prop where
  | base : ReachableDelay POLL_BASE_MS
  | step (reason : LoadStateReason) (outcome : LoadOutcome) (prev : Nat) :
      ReachableDelay prev → ReachableDelay (nextPollDelay reason outcome prev)

/-- A concrete non-terminal job state for witnesses. -/
def runningStateW : TrainingJobState where
  job_id := "job-1"
  status := some "running"
  progress_status := some "running"
  stage := none
  epoch := none
  total_epochs := none
  progress_pct := some 50
  started_at := none
  completed_at := none
  duration_seconds := none
  is_terminal := false
  error := none

/-- A concrete training page state tracking the running job. -/
def activePageStateW : TrainingPageState where
  persistedJobId := some "job-1"
  trainingState := some runningStateW
  stateMessage := ""
  pollDelayMs := POLL_BASE_MS

/-- A concrete terminal job state for witnesses. -/
def terminalStateW : TrainingJobState :=
  { runningStateW with
      status := some "succeeded",
      is_terminal := true }

/-- A concrete cancelJob environment for witnesses: the first two
endpoints answer 404, the third succeeds. -/
def cancelEnvW : Nat → Option Nat := fun i => if i < 2 then some 404 else none

/-! ## cancelJob fallback chain (trainingApi.cancelJob) -/

/-- Result of trainingApi.cancelJob: success, a rethrown non-404/405
error, or exhaustion of all five endpoints (the last 404/405 rethrown). -/
inductive CancelResult where
  | ok
  | raised (status : Nat)
  | exhausted (lastStatus : Option Nat)
deriving DecidableEq, Repr

/-- The attempt loop of cancelJob over the remaining endpoint indices.
The environment maps an attempt index to none (attempt succeeded) or the
HTTP status of its failure (0 models an error without a response).
Returns the indices attempted, in order, and the outcome. -/
def cancelJobLoop (env : Nat → Option Nat) (lastErr : Option Nat) :
    List Nat → List Nat × CancelResult
  | [] => ([], CancelResult.exhausted lastErr)
  | i :: rest =>
    match env i with
    | none => ([i], CancelResult.ok)
    | some code =>
      if code = 404 ∨ code = 405 then
        let r := cancelJobLoop env (some code) rest
        (i :: r.1, r.2)
      else ([i], CancelResult.raised code)

/-- trainingApi.cancelJob tries its five endpoints in order, moving to the
next one only on a 404/405 and rethrowing anything else. -/
def cancelJobRun (env : Nat → Option Nat) : List Nat × CancelResult :=
  cancelJobLoop env none (List.range 5)

/-! ## Request interceptor model (frontend/lib/api/client.ts) -/

/-- The two tokens held in localStorage. -/
structure TokenStore where
  access : Option String
  refresh : Option String
deriving DecidableEq, Repr

/-- JavaScript truthiness of a stored token: getItem returns null or a
string, and the empty string is falsy. -/
def presentToken (v : Option String) : Option String :=
  match v with
  | some s => if s = "" then none else some s
  | none => none

/-- Authorization header set at the end of the interceptor: only a truthy
accessToken is attached. -/
def bearerOf (tok : String) : Option String :=
  if tok = "" then none else some ("Bearer " ++ tok)

/-- Outcome of the request interceptor: the request proceeds with the
given Authorization header and token store, or it is rejected without
being sent, leaving the given store. -/
inductive InterceptOutcome where
  | send (authHeader : Option String) (store : TokenStore)
  | reject (store : TokenStore)
deriving DecidableEq, Repr

/-- Shallow embedding of the apiClient request interceptor (lines 64-98 of
frontend/lib/api/client.ts).  expired models isTokenExpired at send time;
refreshCall models the POST to /auth/refresh, returning the new token pair
or none when the call fails. -/
def requestInterceptor (expired : String → Bool)
    (refreshCall : String → Option (String × String))
    (store : TokenStore) : InterceptOutcome :=
  match presentToken store.access with
  | none => InterceptOutcome.send none store
  | some a =>
    if expired a then
      match presentToken store.refresh with
      | some r =>
        if expired r = false then
          match refreshCall r with
          | some (na, nr) =>
            InterceptOutcome.send (bearerOf na) { access := some na, refresh := some nr }
          | none => InterceptOutcome.reject { access := none, refresh := none }
        else InterceptOutcome.reject { access := none, refresh := none }
      | none => InterceptOutcome.reject { access := none, refresh := none }
    else InterceptOutcome.send (bearerOf a) store

/-- A concrete expiry predicate for witnesses. -/
def expiredW : String → Bool :=
  fun t => t == "expired-access" || t == "expired-refresh"

/-- A concrete successful refresh call for witnesses. -/
def refreshCallW : String → Option (String × String) :=
  fun _ => some ("new-access", "new-refresh")

/-- A concrete token store holding an expired access token and a valid
refresh token. -/
def storeW : TokenStore := ⟨some "expired-access", some "refresh-ok"⟩

/-! ## JSON payloads and the job-state normalization helpers -/

/-- A JSON-like JavaScript value, as received from the backend.  Numbers
are modelled as exact rationals (finite JSON numbers). -/
inductive JsonVal where
  | null
  | bool (b : Bool)
  | num (q : ℚ)
  | str (s : String)
  | arr (elems : List JsonVal)
  | obj (fields : List (String × JsonVal))

/-- Property access on a record: undefined (none) when the key is absent. -/
def getProp (fields : List (String × JsonVal)) (key : String) : Option JsonVal :=
  (fields.find? (fun f => f.1 == key)).map (fun f => f.2)

/-- asRecord from the source: an object that is not an array, else
undefined. -/
def asRecord (v : JsonVal) : Option (List (String × JsonVal)) :=
  match v with
  | JsonVal.obj fields => some fields
  | _ => none

/-- asRecord applied to a possibly-undefined value. -/
def asRecordOpt (v : Option JsonVal) : Option (List (String × JsonVal)) :=
  v.bind asRecord

/-- Whether a value is nullish (null or undefined), as tested by the
JavaScript nullish-coalescing operator. -/
def nullish (v : Option JsonVal) : Bool :=
  match v with
  | none => true
  | some JsonVal.null => true
  | _ => false

/-- The nullish-coalescing operator on possibly-undefined values. -/
def coalesce (a b : Option JsonVal) : Option JsonVal :=
  if nullish a then b else a

/-- JavaScript String(-) coercion restricted to the values of the model. -/
def jsToString : JsonVal → String
  | JsonVal.null => "null"
  | JsonVal.bool b => if b then "true" else "false"
  | JsonVal.num q => toString q
  | JsonVal.str s => s
  | JsonVal.arr elems => String.intercalate "," (elems.attach.map (fun e => jsToString e.1))
  | JsonVal.obj _ => "[object Object]"
decreasing_by
  simp_wf
  have := List.sizeOf_lt_of_mem e.2
  omega

/-- String(value or-else empty), the prelude of the status normalizers. -/
def jsStringOrEmpty (v : Option JsonVal) : String :=
  if nullish v then "" else jsToString (v.getD JsonVal.null)

/-- normalizeJobStateStatus (lines 444-452): trim, lowercase, then map
synonym groups onto the canonical statuses, keeping unknown non-empty
strings and returning null for the empty string. -/
def normalizeJobStateStatus (v : Option JsonVal) : Option String :=
  let s := (jsTrim (jsStringOrEmpty v)).toLower
  if s = "" then none
  else if ["running", "in_progress", "in-progress", "started", "processing"].contains s then
    some "running"
  else if ["succeeded", "completed", "complete", "done", "success", "finished"].contains s then
    some "succeeded"
  else if ["failed", "failure", "error", "errored", "exception"].contains s then
    some "failed"
  else if ["canceled", "cancelled", "aborted", "stopped"].contains s then
    some "canceled"
  else some s

/-- normalizeProgressStatus (lines 454-462). -/
def normalizeProgressStatus (v : Option JsonVal) : Option String :=
  let s := (jsTrim (jsStringOrEmpty v)).toLower
  if s = "" then none
  else if ["queued", "queue", "pending"].contains s then some "queued"
  else if ["running", "in_progress", "in-progress", "started", "processing"].contains s then
    some "running"
  else if ["completed", "complete", "done", "finished", "succeeded", "success"].contains s then
    some "completed"
  else if ["failed", "failure", "error", "errored", "exception"].contains s then
    some "failed"
  else some s

/-- asStringValue: a non-empty trimmed string, else undefined. -/
def asStringValue (v : Option JsonVal) : Option String :=
  match v with
  | some (JsonVal.str s) =>
    let t := jsTrim s
    if t = "" then none else some t
  | _ => none

/-- Greedily split a leading run of decimal digits. -/
def takeDigits : List Char → List Char × List Char
  | [] => ([], [])
  | c :: rest =>
    if c.isDigit then
      let r := takeDigits rest
      (c :: r.1, r.2)
    else ([], c :: rest)

/-- Value of a digit run. -/
def digitsToNat (cs : List Char) : Nat :=
  cs.foldl (fun a c => a * 10 + (c.toNat - 48)) 0

/-- Optional exponent part of a decimal literal (rest of the input). -/
def parseExponent (cs : List Char) : Option Int :=
  match cs with
  | '+' :: rest =>
    if rest ≠ [] ∧ rest.all Char.isDigit then some (digitsToNat rest) else none
  | '-' :: rest =>
    if rest ≠ [] ∧ rest.all Char.isDigit then some (-(digitsToNat rest : Int)) else none
  | rest =>
    if rest ≠ [] ∧ rest.all Char.isDigit then some (digitsToNat rest) else none

/-- Unsigned decimal significand: digits, optionally with a fraction. -/
def parseUnsignedDecimal (cs : List Char) : Option (ℚ × List Char) :=
  let ip := takeDigits cs
  match ip.2 with
  | '.' :: rest2 =>
    let fp := takeDigits rest2
    if ip.1 = [] ∧ fp.1 = [] then none
    else some ((digitsToNat ip.1 : ℚ) + (digitsToNat fp.1 : ℚ) / ((10 : ℚ) ^ fp.1.length), fp.2)
  | _ => if ip.1 = [] then none else some ((digitsToNat ip.1 : ℚ), ip.2)

/-- Models the JavaScript Number(-) coercion on decimal numeric strings:
trimmed empty input is 0, otherwise an optionally signed decimal literal
with an optional exponent; anything else (and non-finite results) is
rejected, as the Number.isFinite guard in asNumberValue does. -/
def jsParseNumber (s : String) : Option ℚ :=
  let t := jsTrim s
  if t = "" then some 0
  else
    let signed : ℚ × List Char :=
      match t.toList with
      | '+' :: rest => (1, rest)
      | '-' :: rest => (-1, rest)
      | cs => (1, cs)
    match parseUnsignedDecimal signed.2 with
    | none => none
    | some (q, rest) =>
      match rest with
      | [] => some (signed.1 * q)
      | c :: rest2 =>
        if c = 'e' ∨ c = 'E' then
          match parseExponent rest2 with
          | some e => some (signed.1 * q * (10 : ℚ) ^ e)
          | none => none
        else none

/-- asNumberValue: a finite number, or a string that parses to a finite
number. -/
def asNumberValue (v : Option JsonVal) : Option ℚ :=
  match v with
  | some (JsonVal.num q) => some q
  | some (JsonVal.str s) => jsParseNumber s
  | _ => none

/-- Math.round: nearest integer, halves toward positive infinity. -/
def jsRound (q : ℚ) : ℤ := Int.floor (q + 1 / 2)

/-- normalizeProgressPct (lines 486-491): treat values in the unit
interval as fractions, round to two decimals, clamp to the range 0-100. -/
def normalizeProgressPct (v : Option JsonVal) : Option ℚ :=
  match asNumberValue v with
  | none => none
  | some n =>
    let pct := if 0 ≤ n ∧ n ≤ 1 then n * 100 else n
    some (max 0 (min 100 ((jsRound (pct * 100) : ℚ) / 100)))

/-- normalizePct on the training page (lines 51-56), textually the same
computation as normalizeProgressPct. -/
def normalizePct (v : Option JsonVal) : Option ℚ :=
  match asNumberValue v with
  | none => none
  | some n =>
    let pct := if 0 ≤ n ∧ n ≤ 1 then n * 100 else n
    some (max 0 (min 100 ((jsRound (pct * 100) : ℚ) / 100)))

/-- The top-level record of the payload (empty when the payload is not an
object). -/
def topRecordOf (payload : JsonVal) : List (String × JsonVal) :=
  (asRecord payload).getD []

/-- The state record: top.state as a record, else top.db, else top. -/
def stateRecordOf (payload : JsonVal) : List (String × JsonVal) :=
  match asRecordOpt (getProp (topRecordOf payload) "state") with
  | some r => r
  | none =>
    match asRecordOpt (getProp (topRecordOf payload) "db") with
    | some r => r
    | none => topRecordOf payload

/-- The progress record: top.progress as a record, else state.progress. -/
def progressRecordOf (payload : JsonVal) : Option (List (String × JsonVal)) :=
  (asRecordOpt (getProp (topRecordOf payload) "progress")).orElse
    (fun _ => asRecordOpt (getProp (stateRecordOf payload) "progress"))

/-- The raw status consulted: state.status, falling back to top.status. -/
def resolvedStatusField (payload : JsonVal) : Option JsonVal :=
  coalesce (getProp (stateRecordOf payload) "status") (getProp (topRecordOf payload) "status")

/-- The raw is_terminal value consulted: state.is_terminal, falling back
to top.is_terminal. -/
def resolvedIsTerminalField (payload : JsonVal) : Option JsonVal :=
  coalesce (getProp (stateRecordOf payload) "is_terminal")
    (getProp (topRecordOf payload) "is_terminal")

/-- The boolean content of a field, when the field holds a boolean
(typeof value equals boolean). -/
def isBoolField (v : Option JsonVal) : Option Bool :=
  match v with
  | some (JsonVal.bool b) => some b
  | _ => none

/-- Shallow embedding of toTrainingJobState (lines 493-547). -/
def toTrainingJobState (jobId : String) (payload : JsonVal) : TrainingJobState :=
  let top := topRecordOf payload
  let state := stateRecordOf payload
  let progress := progressRecordOf payload
  let status := normalizeJobStateStatus (resolvedStatusField payload)
  let progressStatus := normalizeProgressStatus
    (coalesce (getProp state "progress_status")
      (coalesce (progress.bind (fun p => getProp p "status")) (getProp top "progress_status")))
  let epoch := (asNumberValue (getProp state "epoch")).orElse (fun _ =>
    (asNumberValue (getProp state "current_epoch")).orElse (fun _ =>
      (asNumberValue (progress.bind (fun p => getProp p "epoch"))).orElse (fun _ =>
        asNumberValue (progress.bind (fun p => getProp p "current_epoch")))))
  let totalEpochs := (asNumberValue (getProp state "total_epochs")).orElse (fun _ =>
    (asNumberValue (getProp state "num_epochs")).orElse (fun _ =>
      (asNumberValue (progress.bind (fun p => getProp p "total_epochs"))).orElse (fun _ =>
        asNumberValue (progress.bind (fun p => getProp p "num_epochs")))))
  let progressPct := (normalizeProgressPct (getProp state "progress_pct")).orElse (fun _ =>
    (normalizeProgressPct (progress.bind (fun p => getProp p "progress_pct"))).orElse (fun _ =>
      (normalizeProgressPct (progress.bind (fun p => getProp p "percent"))).orElse (fun _ =>
        normalizeProgressPct (progress.bind (fun p => getProp p "progress")))))
  let isTerminal :=
    match isBoolField (resolvedIsTerminalField payload) with
    | some b => b
    | none =>
      status == some "succeeded" || status == some "failed" || status == some "canceled"
  { job_id := ((asStringValue (getProp top "job_id")).orElse
      (fun _ => asStringValue (getProp state "job_id"))).getD jobId,
    status := status,
    progress_status := progressStatus,
    stage := (asStringValue (getProp state "stage")).orElse
      (fun _ => asStringValue (progress.bind (fun p => getProp p "stage"))),
    epoch := epoch,
    total_epochs := totalEpochs,
    progress_pct := progressPct,
    started_at := asStringValue (getProp state "started_at"),
    completed_at := asStringValue (getProp state "completed_at"),
    duration_seconds := asNumberValue (getProp state "duration_seconds"),
    is_terminal := isTerminal,
    error := (asStringValue (getProp state "error")).orElse (fun _ =>
      (asStringValue (getProp state "error_message")).orElse (fun _ =>
        (asStringValue (getProp top "error")).orElse (fun _ =>
          asStringValue (getProp top "error_message")))) }

/-- A concrete payload whose is_terminal field is the boolean true. -/
def payloadBoolW : JsonVal :=
  JsonVal.obj [("status", JsonVal.str "running"), ("is_terminal", JsonVal.bool true)]

/-- A concrete payload with no is_terminal field, a succeeded status and
a fractional progress value. -/
def payloadStatusW : JsonVal :=
  JsonVal.obj [("status", JsonVal.str "completed"), ("progress_pct", JsonVal.num (1 / 2))]

/-! ## Helper lemmas about the upload loop -/

theorem runParts_ok_spec (env : UploadEnv) (d u : String) (P S : Nat)
    (l : List Nat) : ∀ (acc : Nat) (ps : List MultipartUploadedPart),
    (runParts env d u P S acc l).2.2 = Except.ok ps →
      (runParts env d u P S acc l).1 =
        l.flatMap (fun n => [UploadReq.presign d u n,
          UploadReq.putPart n (partStart P n) (partStop P S n)]) ∧
      ps = l.map (fun n => { part_number := n, etag := envEtag env n }) ∧
      (runParts env d u P S acc l).2.1 = cumReports P S acc l := by
  induction l with
  | nil =>
    intro acc ps h
    simp [runParts] at h
    simp [runParts, cumReports, h]
  | cons n rest ih =>
    intro acc ps h
    by_cases hp : env.presignOk n
    · by_cases ho : (env.put n).ok
      · by_cases he : normalizeEtag ((env.put n).etagHeader.getD "") = ""
        · simp [runParts, hp, ho, he] at h
        · simp only [runParts, hp, ho, he, if_true, if_false, ite_true, ite_false] at h ⊢
          cases hr : (runParts env d u P S
              (acc + (min ((n - 1) * P + P) S - (n - 1) * P)) rest).2.2 with
          | error e => rw [hr] at h; simp [Except.map] at h
          | ok ps' =>
            rw [hr] at h
            simp [Except.map] at h
            obtain ⟨h1, h2, h3⟩ := ih _ ps' hr
            subst h
            refine ⟨?_, ?_, ?_⟩
            · simp [h1, partStart, partStop]
            · simp [h2, envEtag]
            · simp [h3, cumReports, chunkLen, partStart, partStop]
      · simp [runParts, hp, ho] at h
    · simp [runParts, hp] at h

theorem runParts_ok_iff (env : UploadEnv) (d u : String) (P S : Nat)
    (l : List Nat) : ∀ acc : Nat,
    (∃ ps, (runParts env d u P S acc l).2.2 = Except.ok ps) ↔
      ∀ n ∈ l, env.presignOk n = true ∧ partUploadOk env n = true := by
  induction l with
  | nil => intro acc; simp [runParts]
  | cons n rest ih =>
    intro acc
    by_cases hp : env.presignOk n
    · by_cases ho : (env.put n).ok
      · by_cases he : normalizeEtag ((env.put n).etagHeader.getD "") = ""
        · simp [runParts, hp, ho, he, partUploadOk, envEtag]
        · simp only [runParts, hp, ho, he, if_true, if_false, ite_true, ite_false]
          cases hr : (runParts env d u P S
              (acc + (min ((n - 1) * P + P) S - (n - 1) * P)) rest).2.2 with
          | error e =>
            have hrest := ih (acc + (min ((n - 1) * P + P) S - (n - 1) * P))
            rw [hr] at hrest
            have hfalse : ¬ ∀ m ∈ rest, env.presignOk m = true ∧ partUploadOk env m = true := by
              intro hall
              rcases hrest.mpr hall with ⟨ps'', hps''⟩
              simp at hps''
            constructor
            · intro hex; rcases hex with ⟨ps'', hps''⟩; simp [Except.map] at hps''
            · intro hall
              exact absurd (fun m hm => hall m (List.mem_cons_of_mem n hm)) hfalse
          | ok ps' =>
            have hrest := ih (acc + (min ((n - 1) * P + P) S - (n - 1) * P))
            rw [hr] at hrest
            simp only [Except.map]
            constructor
            · intro _
              intro m hm
              rcases List.mem_cons.mp hm with rfl | hm'
              · refine ⟨hp, ?_⟩
                simp only [partUploadOk, envEtag, ho, Bool.true_and, Bool.not_eq_true',
                  beq_eq_false_iff_ne, ne_eq]
                exact he
              · exact (hrest.mp ⟨ps', rfl⟩) m hm'
            · intro _
              exact ⟨MultipartUploadedPart.mk n
                (normalizeEtag ((env.put n).etagHeader.getD "")) :: ps', rfl⟩
      · simp [runParts, hp, ho, partUploadOk, envEtag]
    · simp [runParts, hp]

theorem runParts_no_complete (env : UploadEnv) (d u : String) (P S : Nat)
    (l : List Nat) : ∀ acc : Nat,
    ((runParts env d u P S acc l).1).any isCompleteReq = false := by
  induction l with
  | nil => intro acc; simp [runParts]
  | cons n rest ih =>
    intro acc
    by_cases hp : env.presignOk n
    · by_cases ho : (env.put n).ok
      · by_cases he : normalizeEtag ((env.put n).etagHeader.getD "") = ""
        · simp [runParts, hp, ho, he, isCompleteReq]
        · simp [runParts, hp, ho, he, isCompleteReq, ih]
      · simp [runParts, hp, ho, isCompleteReq]
    · simp [runParts, hp, isCompleteReq]

theorem cumReports_last (P S : Nat) (l : List Nat) : ∀ acc : Nat,
    (acc :: cumReports P S acc l).getLast? = some (acc + (l.map (chunkLen P S)).sum) := by
  induction l with
  | nil => intro acc; simp [cumReports]
  | cons n rest ih =>
    intro acc
    simp only [cumReports, List.map_cons, List.sum_cons]
    rw [List.getLast?_cons_cons, ih (acc + chunkLen P S n)]
    congr 1
    omega

theorem chunk_sum (P S : Nat) : ∀ T : Nat,
    ((List.range' 1 T).map (chunkLen P S)).sum = min (T * P) S := by
  intro T
  induction T with
  | zero => simp
  | succ T ih =>
    rw [List.range'_concat, List.map_append, List.sum_append]
    simp only [List.map_cons, List.map_nil, List.sum_cons, List.sum_nil,
      Nat.add_zero, Nat.one_mul, ih]
    have h0 : 1 + T - 1 = T := by omega
    have h1 : chunkLen P S (1 + T) = min (T * P + P) S - T * P := by
      simp [chunkLen, partStart, partStop, h0]
    have h2 : (T + 1) * P = T * P + P := by ring
    rw [h1, h2]
    omega

theorem envPartSize_pos (env : UploadEnv) : 0 < envPartSize env := by
  cases h : env.initResp with
  | none => simp [envPartSize, h]
  | some r =>
    cases hn : r.part_size_bytes with
    | none => simp [envPartSize, h, partSizeOf, hn]
    | some n =>
      simp only [envPartSize, h, partSizeOf, hn]
      omega

theorem le_ceil_mul (S P : Nat) (hP : 0 < P) : S ≤ jsCeilDiv S P * P := by
  unfold jsCeilDiv
  have h1 := Nat.div_add_mod (S + P - 1) P
  have h2 : (S + P - 1) % P < P := Nat.mod_lt _ hP
  have h3 : (S + P - 1) / P * P = P * ((S + P - 1) / P) := Nat.mul_comm _ _
  rw [h3]
  generalize P * ((S + P - 1) / P) = m at h1 ⊢
  generalize (S + P - 1) % P = r at h1 h2
  omega

theorem le_totalParts_mul (env : UploadEnv) (S : Nat) :
    S ≤ totalPartsOf env S * envPartSize env := by
  have h := le_ceil_mul S (envPartSize env) (envPartSize_pos env)
  calc S ≤ jsCeilDiv S (envPartSize env) * envPartSize env := h
    _ ≤ totalPartsOf env S * envPartSize env :=
      Nat.mul_le_mul_right _ (le_max_right 1 _)

theorem totalParts_pred_mul_le (env : UploadEnv) (S : Nat) :
    (totalPartsOf env S - 1) * envPartSize env ≤ S := by
  set P := envPartSize env with hPdef
  have hP : 0 < P := envPartSize_pos env
  unfold totalPartsOf
  rcases Nat.eq_zero_or_pos S with hS | hS
  · subst hS
    have hc : jsCeilDiv 0 P = 0 := by
      unfold jsCeilDiv
      exact Nat.div_eq_of_lt (by omega)
    simp [hc]
  · have hq : 1 ≤ jsCeilDiv S P := by
      unfold jsCeilDiv
      rw [Nat.one_le_div_iff hP]
      omega
    rw [Nat.max_eq_right hq]
    have h4 := Nat.div_mul_le_self (S + P - 1) P
    unfold jsCeilDiv
    rw [Nat.sub_mul]
    generalize (S + P - 1) / P * P = m at h4 ⊢
    omega

theorem insertByPartNumber_front (p : MultipartUploadedPart)
    (l : List MultipartUploadedPart)
    (h : ∀ q ∈ l, p.part_number < q.part_number) : insertByPartNumber p l = p :: l := by
  cases l with
  | nil => rfl
  | cons q rest => simp [insertByPartNumber, h q (by simp)]

theorem sortByPartNumber_range_map (f : Nat → String) : ∀ (T s : Nat),
    sortByPartNumber ((List.range' s T).map
        (fun n => { part_number := n, etag := f n : MultipartUploadedPart })) =
      (List.range' s T).map (fun n => { part_number := n, etag := f n }) := by
  intro T
  induction T with
  | zero => intro s; rfl
  | succ T ih =>
    intro s
    rw [List.range'_succ]
    simp only [List.map_cons, sortByPartNumber]
    rw [ih (s + 1)]
    apply insertByPartNumber_front
    intro q hq
    simp only [List.mem_map] at hq
    obtain ⟨n, hn, rfl⟩ := hq
    have := (List.mem_range'_1.mp hn).1
    simp only []
    omega

/-- Equation for a run whose part loop succeeded. -/
theorem multipart_run_eq (env : UploadEnv) (S : Nat) (resp : MultipartInitResponse)
    (hinit : env.initResp = some resp)
    (hd : resp.dataset_id ≠ "") (hu : resp.upload_id ≠ "")
    (parts : List MultipartUploadedPart)
    (hr : (runParts env resp.dataset_id resp.upload_id (partSizeOf resp) S 0
        (List.range' 1 (max 1 (jsCeilDiv S (partSizeOf resp))))).2.2 = Except.ok parts) :
    multipartUploadDataset env S =
      ⟨UploadReq.init :: ((runParts env resp.dataset_id resp.upload_id (partSizeOf resp) S 0
          (List.range' 1 (max 1 (jsCeilDiv S (partSizeOf resp))))).1
        ++ [UploadReq.complete resp.dataset_id resp.upload_id (sortByPartNumber parts)]),
       0 :: (runParts env resp.dataset_id resp.upload_id (partSizeOf resp) S 0
          (List.range' 1 (max 1 (jsCeilDiv S (partSizeOf resp))))).2.1,
       if env.completeOk then Except.ok (resp.upload_id, sortByPartNumber parts)
       else Except.error "Multipart complete failed"⟩ := by
  simp only [multipartUploadDataset, hinit]
  rw [if_neg (show ¬(resp.dataset_id = "" ∨ resp.upload_id = "") by simp [hd, hu])]
  rw [hr]
  by_cases hc : env.completeOk <;> simp [hc]

/-- Equation for a run whose part loop threw. -/
theorem multipart_run_eq_err (env : UploadEnv) (S : Nat) (resp : MultipartInitResponse)
    (hinit : env.initResp = some resp)
    (hd : resp.dataset_id ≠ "") (hu : resp.upload_id ≠ "") (e : String)
    (hr : (runParts env resp.dataset_id resp.upload_id (partSizeOf resp) S 0
        (List.range' 1 (max 1 (jsCeilDiv S (partSizeOf resp))))).2.2 = Except.error e) :
    multipartUploadDataset env S =
      ⟨UploadReq.init :: (runParts env resp.dataset_id resp.upload_id (partSizeOf resp) S 0
          (List.range' 1 (max 1 (jsCeilDiv S (partSizeOf resp))))).1,
       0 :: (runParts env resp.dataset_id resp.upload_id (partSizeOf resp) S 0
          (List.range' 1 (max 1 (jsCeilDiv S (partSizeOf resp))))).2.1,
       Except.error e⟩ := by
  simp only [multipartUploadDataset, hinit]
  rw [if_neg (show ¬(resp.dataset_id = "" ∨ resp.upload_id = "") by simp [hd, hu])]
  rw [hr]

/-- Equation for a run whose init returned an empty id. -/
theorem multipart_run_eq_badid (env : UploadEnv) (S : Nat) (resp : MultipartInitResponse)
    (hinit : env.initResp = some resp)
    (hid : resp.dataset_id = "" ∨ resp.upload_id = "") :
    multipartUploadDataset env S =
      ⟨[UploadReq.init], [],
       Except.error "Multipart init returned invalid dataset_id/upload_id"⟩ := by
  simp [multipartUploadDataset, hinit, hid]

/-- Full characterization of a successful run of multipartUploadDataset. -/
theorem multipart_ok_spec (env : UploadEnv) (S : Nat)
    (v : String × List MultipartUploadedPart)
    (h : (multipartUploadDataset env S).result = Except.ok v) :
    ∃ resp, env.initResp = some resp ∧ resp.dataset_id ≠ "" ∧ resp.upload_id ≠ "" ∧
      env.completeOk = true ∧
      v = (resp.upload_id, specParts env S) ∧
      (multipartUploadDataset env S).trace = specTrace env S resp.dataset_id resp.upload_id ∧
      (multipartUploadDataset env S).reports =
        0 :: cumReports (envPartSize env) S 0 (List.range' 1 (totalPartsOf env S)) := by
  cases hinit : env.initResp with
  | none => simp [multipartUploadDataset, hinit] at h
  | some resp =>
    refine ⟨resp, rfl, ?_⟩
    have hPeq : envPartSize env = partSizeOf resp := by simp [envPartSize, hinit]
    have hTeq : totalPartsOf env S = max 1 (jsCeilDiv S (partSizeOf resp)) := by
      simp [totalPartsOf, hPeq]
    by_cases hid : resp.dataset_id = "" ∨ resp.upload_id = ""
    · rw [multipart_run_eq_badid env S resp hinit hid] at h
      simp at h
    · push_neg at hid
      cases hr : (runParts env resp.dataset_id resp.upload_id (partSizeOf resp) S 0
          (List.range' 1 (max 1 (jsCeilDiv S (partSizeOf resp))))).2.2 with
      | error e =>
        rw [multipart_run_eq_err env S resp hinit hid.1 hid.2 e hr] at h
        simp at h
      | ok parts =>
        obtain ⟨htr, hps, hreps⟩ := runParts_ok_spec env resp.dataset_id resp.upload_id
          (partSizeOf resp) S _ 0 parts hr
        have hsorted : sortByPartNumber parts = specParts env S := by
          rw [hps]
          rw [sortByPartNumber_range_map (envEtag env) (max 1 (jsCeilDiv S (partSizeOf resp))) 1]
          simp [specParts, hTeq]
        rw [multipart_run_eq env S resp hinit hid.1 hid.2 parts hr] at h ⊢
        by_cases hc : env.completeOk
        · simp only [hc, if_true, ite_true] at h
          refine ⟨hid.1, hid.2, hc, ?_, ?_, ?_⟩
          · cases h; simp [hsorted]
          · simp only [htr, hsorted]
            simp [specTrace, hTeq, hPeq]
          · simp [hreps, hTeq, hPeq]
        · simp [hc] at h

theorem partUploadOk_iff (env : UploadEnv) (n : Nat) :
    partUploadOk env n = true ↔ (env.put n).ok = true ∧ envEtag env n ≠ "" := by
  simp [partUploadOk, Bool.and_eq_true, Bool.not_eq_true', beq_eq_false_iff_ne]

theorem filter_putPart_pairs (d u : String) (f g : Nat → Nat) : ∀ l : List Nat,
    (l.flatMap (fun n => [UploadReq.presign d u n, UploadReq.putPart n (f n) (g n)])).filter
        isPutPart = l.map (fun n => UploadReq.putPart n (f n) (g n)) := by
  intro l
  induction l with
  | nil => rfl
  | cons n rest ih =>
    simp only [List.flatMap_cons, List.filter_append, ih, List.filter_cons]
    simp [isPutPart]

theorem sentComplete_iff (env : UploadEnv) (S : Nat) :
    sentComplete (multipartUploadDataset env S) = true ↔
      ∃ resp, env.initResp = some resp ∧ resp.dataset_id ≠ "" ∧ resp.upload_id ≠ "" ∧
        ∀ n ∈ List.range' 1 (totalPartsOf env S),
          env.presignOk n = true ∧ partUploadOk env n = true := by
  cases hinit : env.initResp with
  | none =>
    simp [multipartUploadDataset, hinit, sentComplete, isCompleteReq]
  | some resp =>
    have hTeq : totalPartsOf env S = max 1 (jsCeilDiv S (partSizeOf resp)) := by
      simp [totalPartsOf, envPartSize, hinit]
    by_cases hid : resp.dataset_id = "" ∨ resp.upload_id = ""
    · rw [multipart_run_eq_badid env S resp hinit hid]
      simp only [sentComplete, List.any_cons, List.any_nil, isCompleteReq, Bool.or_false]
      constructor
      · intro hfalse; cases hfalse
      · rintro ⟨resp', hr', hd', hu', -⟩
        cases hr'
        rcases hid with h | h
        · exact absurd h hd'
        · exact absurd h hu'
    · push_neg at hid
      cases hr : (runParts env resp.dataset_id resp.upload_id (partSizeOf resp) S 0
          (List.range' 1 (max 1 (jsCeilDiv S (partSizeOf resp))))).2.2 with
      | error e =>
        rw [multipart_run_eq_err env S resp hinit hid.1 hid.2 e hr]
        simp only [sentComplete, List.any_cons, isCompleteReq, Bool.false_or]
        rw [runParts_no_complete env resp.dataset_id resp.upload_id (partSizeOf resp) S _ 0]
        constructor
        · intro hfalse; cases hfalse
        · rintro ⟨resp', hr', -, -, hall⟩
          cases hr'
          have hok := (runParts_ok_iff env resp.dataset_id resp.upload_id (partSizeOf resp) S
            (List.range' 1 (max 1 (jsCeilDiv S (partSizeOf resp)))) 0).mpr
            (by rw [← hTeq]; exact hall)
          rcases hok with ⟨ps, hps⟩
          rw [hr] at hps
          cases hps
      | ok parts =>
        rw [multipart_run_eq env S resp hinit hid.1 hid.2 parts hr]
        simp only [sentComplete]
        constructor
        · intro _
          refine ⟨resp, rfl, hid.1, hid.2, ?_⟩
          rw [hTeq]
          exact (runParts_ok_iff env resp.dataset_id resp.upload_id (partSizeOf resp) S _ 0).mp
            ⟨parts, hr⟩
        · intro _
          simp [isCompleteReq, List.any_append]

theorem ok_implies_sentComplete (env : UploadEnv) (S : Nat)
    (v : String × List MultipartUploadedPart)
    (h : (multipartUploadDataset env S).result = Except.ok v) :
    sentComplete (multipartUploadDataset env S) = true := by
  obtain ⟨resp, -, -, -, -, -, htr, -⟩ := multipart_ok_spec env S v h
  rw [sentComplete, htr]
  simp [specTrace, isCompleteReq, List.any_append]

theorem complete_in_trace_eq (env : UploadEnv) (S : Nat) (d u : String)
    (ps : List MultipartUploadedPart)
    (h : UploadReq.complete d u ps ∈ (multipartUploadDataset env S).trace) :
    ps = specParts env S := by
  cases hinit : env.initResp with
  | none =>
    have htr : (multipartUploadDataset env S).trace = [UploadReq.init] := by
      simp [multipartUploadDataset, hinit]
    rw [htr] at h
    simp at h
  | some resp =>
    have hTeq : totalPartsOf env S = max 1 (jsCeilDiv S (partSizeOf resp)) := by
      simp [totalPartsOf, envPartSize, hinit]
    by_cases hid : resp.dataset_id = "" ∨ resp.upload_id = ""
    · rw [multipart_run_eq_badid env S resp hinit hid] at h
      simp at h
    · push_neg at hid
      cases hr : (runParts env resp.dataset_id resp.upload_id (partSizeOf resp) S 0
          (List.range' 1 (max 1 (jsCeilDiv S (partSizeOf resp))))).2.2 with
      | error e =>
        rw [multipart_run_eq_err env S resp hinit hid.1 hid.2 e hr] at h
        have hc : isCompleteReq (UploadReq.complete d u ps) = true := rfl
        simp only [List.mem_cons] at h
        rcases h with h | h
        · cases h
        · have hany : ((runParts env resp.dataset_id resp.upload_id (partSizeOf resp) S 0
              (List.range' 1 (max 1 (jsCeilDiv S (partSizeOf resp))))).1).any
                isCompleteReq = true :=
            List.any_eq_true.mpr ⟨_, h, hc⟩
          rw [runParts_no_complete env resp.dataset_id resp.upload_id
            (partSizeOf resp) S _ 0] at hany
          cases hany
      | ok parts =>
        obtain ⟨-, hps, -⟩ := runParts_ok_spec env resp.dataset_id resp.upload_id
          (partSizeOf resp) S _ 0 parts hr
        rw [multipart_run_eq env S resp hinit hid.1 hid.2 parts hr] at h
        have hc : isCompleteReq (UploadReq.complete d u ps) = true := rfl
        simp only [List.mem_cons, List.mem_append] at h
        rcases h with h | h | h | h
        · cases h
        · have hany : ((runParts env resp.dataset_id resp.upload_id (partSizeOf resp) S 0
              (List.range' 1 (max 1 (jsCeilDiv S (partSizeOf resp))))).1).any
                isCompleteReq = true :=
            List.any_eq_true.mpr ⟨_, h, hc⟩
          rw [runParts_no_complete env resp.dataset_id resp.upload_id
            (partSizeOf resp) S _ 0] at hany
          cases hany
        · simp only [UploadReq.complete.injEq] at h
          obtain ⟨-, -, h3⟩ := h
          rw [h3, hps]
          rw [sortByPartNumber_range_map (envEtag env) (max 1 (jsCeilDiv S (partSizeOf resp))) 1]
          simp [specParts, hTeq]
        · cases h

theorem chain_lt_range (T : Nat) : ∀ s : Nat, List.Chain' (· < ·) (List.range' s T) := by
  induction T with
  | zero => intro s; simp
  | succ T ih =>
    intro s
    rw [List.range'_succ]
    cases hT : T with
    | zero => simp
    | succ T' =>
      have := ih (s + 1)
      rw [hT] at this
      rw [List.range'_succ] at this ⊢
      rw [List.chain'_cons]
      exact ⟨by omega, this⟩

/-! ## Claims C1-C4: the multipart upload orchestration -/

/-- C1: multipartUploadDataset issues exactly one init request, throwing
when it yields an empty dataset_id or upload_id without issuing anything
further; on a successful run the trace is the init request, then for each
part number 1..totalParts in increasing order a presigned-URL request
followed by the PUT of that part's chunk whose normalized ETag is
recorded, then exactly one complete request carrying the upload_id and
the collected (part_number, etag) pairs. -/
theorem multipart_request_order (env : UploadEnv) (S : Nat) :
    (∀ resp, env.initResp = some resp → (resp.dataset_id = "" ∨ resp.upload_id = "") →
      (multipartUploadDataset env S).trace = [UploadReq.init] ∧
      resultIsError (multipartUploadDataset env S) = true) ∧
    (∀ v, (multipartUploadDataset env S).result = Except.ok v →
      ∃ resp, env.initResp = some resp ∧ resp.dataset_id ≠ "" ∧ resp.upload_id ≠ "" ∧
        v = (resp.upload_id, specParts env S) ∧
        (multipartUploadDataset env S).trace = specTrace env S resp.dataset_id resp.upload_id) := by
  constructor
  · intro resp hinit hid
    rw [multipart_run_eq_badid env S resp hinit hid]
    exact ⟨rfl, rfl⟩
  · intro v h
    obtain ⟨resp, h1, h2, h3, -, h5, h6, -⟩ := multipart_ok_spec env S v h
    exact ⟨resp, h1, h2, h3, h5, h6⟩

/-- Witness for C1 at concrete environments: an init response with an
empty dataset_id makes the run throw after the single init request, and a
fully successful 11 MiB upload produces the specified trace. -/
theorem multipart_request_order_witness :
    (multipartUploadDataset envBadId sizeW).trace = [UploadReq.init] ∧
    resultIsError (multipartUploadDataset envBadId sizeW) = true ∧
    (multipartUploadDataset envAllOk sizeW).trace = specTrace envAllOk sizeW "ds" "up" := by
  refine ⟨((multipart_request_order envBadId sizeW).1 ⟨"", "u", none⟩ rfl (Or.inl rfl)).1,
    ((multipart_request_order envBadId sizeW).1 ⟨"", "u", none⟩ rfl (Or.inl rfl)).2, ?_⟩
  obtain ⟨resp, hinit, -, -, -, htr⟩ :=
    (multipart_request_order envAllOk sizeW).2 ("up", specParts envAllOk sizeW) (by rfl)
  have hresp : resp = ⟨"ds", "up", some (5 * 1024 * 1024)⟩ :=
    Option.some.inj (hinit.symm.trans rfl)
  rw [hresp] at htr
  exact htr

/-- C2: on a successful run of a file of S bytes, the effective part size
P is the server value clamped to at least 5 MiB (16 MiB when absent), the
run uploads max 1 (ceil (S / P)) parts whose byte ranges are adjacent,
pairwise disjoint, increasing, start at 0 and end at S, and whose lengths
sum to S, so the last reported cumulative uploaded byte count is S. -/
theorem multipart_chunking (env : UploadEnv) (S : Nat)
    (v : String × List MultipartUploadedPart)
    (h : (multipartUploadDataset env S).result = Except.ok v) :
    totalPartsOf env S = max 1 (jsCeilDiv S (envPartSize env)) ∧
    ((multipartUploadDataset env S).trace.filter isPutPart) =
      (List.range' 1 (totalPartsOf env S)).map
        (fun n => UploadReq.putPart n (partStart (envPartSize env) n)
          (partStop (envPartSize env) S n)) ∧
    partStart (envPartSize env) 1 = 0 ∧
    (∀ n ∈ List.range' 1 (totalPartsOf env S),
      partStart (envPartSize env) n ≤ partStop (envPartSize env) S n ∧
      partStop (envPartSize env) S n ≤ S) ∧
    (∀ n ∈ List.range' 1 (totalPartsOf env S), n < totalPartsOf env S →
      partStop (envPartSize env) S n = partStart (envPartSize env) (n + 1)) ∧
    (∀ m ∈ List.range' 1 (totalPartsOf env S), ∀ n ∈ List.range' 1 (totalPartsOf env S),
      m < n → partStop (envPartSize env) S m ≤ partStart (envPartSize env) n) ∧
    partStop (envPartSize env) S (totalPartsOf env S) = S ∧
    ((List.range' 1 (totalPartsOf env S)).map (chunkLen (envPartSize env) S)).sum = S ∧
    ((multipartUploadDataset env S).reports).getLast? = some S := by
  obtain ⟨resp, -, -, -, -, -, htr, hreps⟩ := multipart_ok_spec env S v h
  set P := envPartSize env with hPdef
  set T := totalPartsOf env S with hTdef
  have hP : 0 < P := envPartSize_pos env
  have hT1 : 1 ≤ T := le_max_left 1 _
  have hTS1 : S ≤ T * P := le_totalParts_mul env S
  have hTS2 : (T - 1) * P ≤ S := totalParts_pred_mul_le env S
  have hstart_le : ∀ n, n ∈ List.range' 1 T → partStart P n ≤ S := by
    intro n hn
    have hn' := List.mem_range'_1.mp hn
    calc partStart P n = (n - 1) * P := rfl
      _ ≤ (T - 1) * P := Nat.mul_le_mul_right P (by omega)
      _ ≤ S := hTS2
  refine ⟨rfl, ?_, by simp [partStart], ?_, ?_, ?_, ?_, ?_, ?_⟩
  · rw [htr]
    simp only [specTrace, List.filter_cons, List.filter_append]
    rw [filter_putPart_pairs]
    simp [isPutPart]
  · intro n hn
    refine ⟨le_min (Nat.le_add_right _ _) (hstart_le n hn), Nat.min_le_right _ _⟩
  · intro n hn hlt
    have hn' := List.mem_range'_1.mp hn
    have hnP : (n - 1) * P + P = n * P := by
      have h1 : n - 1 + 1 = n := by omega
      calc (n - 1) * P + P = (n - 1 + 1) * P := by ring
        _ = n * P := by rw [h1]
    have hnS : n * P ≤ S := by
      calc n * P ≤ (T - 1) * P := Nat.mul_le_mul_right P (by omega)
        _ ≤ S := hTS2
    simp only [partStop, partStart, hnP, Nat.add_sub_cancel]
    exact Nat.min_eq_left hnS
  · intro m hm n hn hlt
    have hm' := List.mem_range'_1.mp hm
    have hmP : (m - 1) * P + P = m * P := by
      have h1 : m - 1 + 1 = m := by omega
      calc (m - 1) * P + P = (m - 1 + 1) * P := by ring
        _ = m * P := by rw [h1]
    calc partStop P S m ≤ partStart P m + P := Nat.min_le_left _ _
      _ = m * P := hmP
      _ ≤ (n - 1) * P := Nat.mul_le_mul_right P (by omega)
      _ = partStart P n := rfl
  · have hTP : partStart P T + P = T * P := by
      have h1 : T - 1 + 1 = T := by omega
      show (T - 1) * P + P = T * P
      calc (T - 1) * P + P = (T - 1 + 1) * P := by ring
        _ = T * P := by rw [h1]
    simp only [partStop, hTP]
    exact Nat.min_eq_right hTS1
  · rw [chunk_sum]
    exact Nat.min_eq_right hTS1
  · rw [hreps, cumReports_last, chunk_sum]
    rw [Nat.min_eq_right hTS1, Nat.zero_add]

/-- Witness for C2: the successful 11 MiB run uses three 5 MiB parts and
reports 11 MiB as the final cumulative uploaded byte count. -/
theorem multipart_chunking_witness :
    (multipartUploadDataset envAllOk sizeW).result =
      Except.ok ("up", specParts envAllOk sizeW) ∧
    ((multipartUploadDataset envAllOk sizeW).reports).getLast? = some sizeW :=
  ⟨by rfl,
   (multipart_chunking envAllOk sizeW ("up", specParts envAllOk sizeW)
     (by rfl)).2.2.2.2.2.2.2.2⟩

/-- C3: the complete request is sent exactly when every part PUT returned
ok with a non-empty normalized ETag (given that init succeeded with valid
ids and every presign succeeded, which the claim presupposes); any failed
part PUT or missing/empty ETag means the run throws and no complete
request is ever sent. -/
theorem multipart_complete_iff_parts_ok (env : UploadEnv) (S : Nat) :
    (sentComplete (multipartUploadDataset env S) = true →
      ∀ n ∈ List.range' 1 (totalPartsOf env S),
        (env.put n).ok = true ∧ envEtag env n ≠ "") ∧
    ((∃ resp, env.initResp = some resp ∧ resp.dataset_id ≠ "" ∧ resp.upload_id ≠ "") →
      (∀ n ∈ List.range' 1 (totalPartsOf env S), env.presignOk n = true) →
      (sentComplete (multipartUploadDataset env S) = true ↔
        ∀ n ∈ List.range' 1 (totalPartsOf env S),
          (env.put n).ok = true ∧ envEtag env n ≠ "")) ∧
    ((∃ n ∈ List.range' 1 (totalPartsOf env S),
        ¬((env.put n).ok = true ∧ envEtag env n ≠ "")) →
      sentComplete (multipartUploadDataset env S) = false ∧
      resultIsError (multipartUploadDataset env S) = true) := by
  have hfwd : sentComplete (multipartUploadDataset env S) = true →
      ∀ n ∈ List.range' 1 (totalPartsOf env S),
        (env.put n).ok = true ∧ envEtag env n ≠ "" := by
    intro hsc n hn
    obtain ⟨resp, -, -, -, hall⟩ := (sentComplete_iff env S).mp hsc
    exact (partUploadOk_iff env n).mp (hall n hn).2
  refine ⟨hfwd, ?_, ?_⟩
  · rintro ⟨resp, hinit, hd, hu⟩ hpre
    constructor
    · exact hfwd
    · intro hall
      apply (sentComplete_iff env S).mpr
      refine ⟨resp, hinit, hd, hu, ?_⟩
      intro n hn
      exact ⟨hpre n hn, (partUploadOk_iff env n).mpr (hall n hn)⟩
  · rintro ⟨n, hn, hbad⟩
    have hsc : sentComplete (multipartUploadDataset env S) = false := by
      cases hsc : sentComplete (multipartUploadDataset env S) with
      | false => rfl
      | true => exact absurd (hfwd hsc n hn) hbad
    refine ⟨hsc, ?_⟩
    cases hres : (multipartUploadDataset env S).result with
    | error e => simp [resultIsError, hres]
    | ok v =>
      have := ok_implies_sentComplete env S v hres
      rw [hsc] at this
      cases this

/-- Witness for C3: in the all-ok environment the complete request goes
out, and in the environment whose part 2 PUT fails the run throws with no
complete request sent. -/
theorem multipart_complete_iff_parts_ok_witness :
    sentComplete (multipartUploadDataset envAllOk sizeW) = true ∧
    sentComplete (multipartUploadDataset envBadPut sizeW) = false ∧
    resultIsError (multipartUploadDataset envBadPut sizeW) = true := by
  have h2 := (multipart_complete_iff_parts_ok envBadPut sizeW).2.2 (by decide)
  exact ⟨((multipart_complete_iff_parts_ok envAllOk sizeW).2.1
      ⟨⟨"ds", "up", some (5 * 1024 * 1024)⟩, rfl, by decide, by decide⟩
      (by decide)).mpr (by decide),
    h2.1, h2.2⟩

/-- C4: the parts list in the body of the complete request holds exactly
one entry for each part number from 1 to totalParts, in strictly
increasing part_number order. -/
theorem multipart_complete_parts_sorted (env : UploadEnv) (S : Nat)
    (d u : String) (ps : List MultipartUploadedPart)
    (h : UploadReq.complete d u ps ∈ (multipartUploadDataset env S).trace) :
    ps.map (fun p => p.part_number) = List.range' 1 (totalPartsOf env S) ∧
    List.Chain' (· < ·) (ps.map (fun p => p.part_number)) ∧
    (∀ n : Nat, n ∈ ps.map (fun p => p.part_number) ↔ 1 ≤ n ∧ n ≤ totalPartsOf env S) := by
  have hps := complete_in_trace_eq env S d u ps h
  have hmap : ps.map (fun p => p.part_number) = List.range' 1 (totalPartsOf env S) := by
    rw [hps]
    simp only [specParts, List.map_map]
    have hcomp : ((fun p : MultipartUploadedPart => p.part_number) ∘
        fun n => { part_number := n, etag := envEtag env n : MultipartUploadedPart }) =
          fun n => n := rfl
    rw [hcomp, List.map_id']
  refine ⟨hmap, ?_, ?_⟩
  · rw [hmap]
    exact chain_lt_range (totalPartsOf env S) 1
  · intro n
    rw [hmap, List.mem_range'_1]
    omega

/-- Witness for C4 at the successful 11 MiB run: the complete body lists
part numbers 1, 2, 3. -/
theorem multipart_complete_parts_sorted_witness :
    (UploadReq.complete "ds" "up" (specParts envAllOk sizeW) ∈
      (multipartUploadDataset envAllOk sizeW).trace) ∧
    (specParts envAllOk sizeW).map (fun p => p.part_number) =
      List.range' 1 (totalPartsOf envAllOk sizeW) :=
  ⟨by decide,
   (multipart_complete_parts_sorted envAllOk sizeW "ds" "up"
     (specParts envAllOk sizeW) (by decide)).1⟩

/-! ## Claims C5-C7: polling, backoff, and 403/404 handling -/

/-- C5: the job-state polling delay follows bounded exponential backoff:
loadJobState updates pollDelayMs exactly through nextPollDelay; a poll
that fails with a network error, or with any failure that is not a
401/403/404, backs the delay off to min 15000 (max 3000 (2 * prev));
every successful poll resets it to 3000; and every delay reachable from
the initial 3000 lies between 3000 and 15000 inclusive. -/
theorem poll_backoff_spec :
    (∀ jobId reason outcome s,
      (loadJobStateStep jobId reason outcome s).pollDelayMs =
        nextPollDelay reason outcome s.pollDelayMs) ∧
    (∀ prev, nextPollDelay LoadStateReason.poll LoadOutcome.networkError prev =
      min POLL_MAX_MS (max POLL_BASE_MS (2 * prev))) ∧
    (∀ code prev, code ≠ 401 → code ≠ 403 → code ≠ 404 →
      nextPollDelay LoadStateReason.poll (LoadOutcome.httpError code) prev =
        min POLL_MAX_MS (max POLL_BASE_MS (2 * prev))) ∧
    (∀ prev, nextPollDelay LoadStateReason.poll LoadOutcome.otherError prev =
      min POLL_MAX_MS (max POLL_BASE_MS (2 * prev))) ∧
    (∀ reason st prev, nextPollDelay reason (LoadOutcome.success st) prev = POLL_BASE_MS) ∧
    (∀ d, ReachableDelay d → POLL_BASE_MS ≤ d ∧ d ≤ POLL_MAX_MS) := by
  refine ⟨?_, ?_, ?_, ?_, ?_, ?_⟩
  · intro jobId reason outcome s
    cases outcome with
    | success st => rfl
    | httpError code =>
      simp only [loadJobStateStep, nextPollDelay]
      split_ifs <;> rfl
    | networkError => rfl
    | otherError => rfl
  · intro prev; rfl
  · intro code prev h1 h2 h3
    simp [nextPollDelay, backoffDelay, h1, h2, h3]
  · intro prev; rfl
  · intro reason st prev; rfl
  · intro d hd
    induction hd with
    | base => exact ⟨le_refl _, by decide⟩
    | step reason outcome prev hprev ih =>
      cases outcome with
      | success st =>
        refine ⟨le_refl _, ?_⟩
        show POLL_BASE_MS ≤ POLL_MAX_MS
        decide
      | httpError code =>
        simp only [nextPollDelay, backoffDelay, POLL_BASE_MS, POLL_MAX_MS] at *
        split_ifs <;> omega
      | networkError =>
        simp only [nextPollDelay, backoffDelay, POLL_BASE_MS, POLL_MAX_MS] at *
        omega
      | otherError =>
        simp only [nextPollDelay, backoffDelay, POLL_BASE_MS, POLL_MAX_MS] at *
        split_ifs <;> omega

/-- Witness for C5: a 500 failure while polling doubles 3000 to 6000, and
the initial delay lies within the bounds. -/
theorem poll_backoff_spec_witness :
    nextPollDelay LoadStateReason.poll (LoadOutcome.httpError 500) 3000 =
      min POLL_MAX_MS (max POLL_BASE_MS (2 * 3000)) ∧
    (POLL_BASE_MS ≤ POLL_BASE_MS ∧ POLL_BASE_MS ≤ POLL_MAX_MS) :=
  ⟨poll_backoff_spec.2.2.1 500 3000 (by decide) (by decide) (by decide),
   poll_backoff_spec.2.2.2.2.2 POLL_BASE_MS ReachableDelay.base⟩

/-- C6 counterexample: the claim says a 404 on the job-state request is
handled by simply retrying the request; at this concrete active page
state (which was tracking job-1) the code instead clears the persisted
job id, so the polling effect arms no further request and the job-state
request is never re-issued. -/
theorem retry_on_404_counterexample :
    activePageStateW.persistedJobId = some "job-1" ∧
    pollEffectArms activePageStateW.persistedJobId activePageStateW.trainingState = true ∧
    (loadJobStateStep "job-1" LoadStateReason.poll (LoadOutcome.httpError 404)
        activePageStateW).persistedJobId = none ∧
    pollEffectArms
      (loadJobStateStep "job-1" LoadStateReason.poll (LoadOutcome.httpError 404)
        activePageStateW).persistedJobId
      (loadJobStateStep "job-1" LoadStateReason.poll (LoadOutcome.httpError 404)
        activePageStateW).trainingState = false := by
  decide

theorem cancelJobLoop_take (env : Nat → Option Nat) :
    ∀ (l : List Nat) (lastErr : Option Nat),
      ∃ k, k ≤ l.length ∧ (cancelJobLoop env lastErr l).1 = l.take k := by
  intro l
  induction l with
  | nil => intro lastErr; exact ⟨0, by simp, rfl⟩
  | cons i rest ih =>
    intro lastErr
    cases henv : env i with
    | none =>
      refine ⟨1, by simp, ?_⟩
      simp [cancelJobLoop, henv]
    | some code =>
      by_cases hc : code = 404 ∨ code = 405
      · obtain ⟨k, hk, hkeq⟩ := ih (some code)
        refine ⟨k + 1, by simp; omega, ?_⟩
        simp [cancelJobLoop, henv, hc, hkeq]
      · refine ⟨1, by simp, ?_⟩
        simp [cancelJobLoop, henv, hc]

/-- C6 amended: a job-state request failing with 403 or 404 makes the
client abandon the job, not retry it: the persisted job id and tracked
state are cleared, the poll delay is untouched, and the polling effect
arms no new request; separately, trainingApi.cancelJob reacts to a
404/405 by moving to the next endpoint of its fallback list, so its
attempts are a prefix of the distinct endpoint indices and no attempt is
ever re-issued. -/
theorem state_request_403_404_abandons (jobId : String) (reason : LoadStateReason)
    (s : TrainingPageState) (code : Nat) (hcode : code = 403 ∨ code = 404) :
    ((loadJobStateStep jobId reason (LoadOutcome.httpError code) s).persistedJobId = none ∧
     (loadJobStateStep jobId reason (LoadOutcome.httpError code) s).trainingState = none ∧
     (loadJobStateStep jobId reason (LoadOutcome.httpError code) s).pollDelayMs =
       s.pollDelayMs ∧
     pollEffectArms
       (loadJobStateStep jobId reason (LoadOutcome.httpError code) s).persistedJobId
       (loadJobStateStep jobId reason (LoadOutcome.httpError code) s).trainingState = false) ∧
    (∀ env : Nat → Option Nat, ∃ k, k ≤ 5 ∧ (cancelJobRun env).1 = (List.range 5).take k) := by
  constructor
  · simp only [loadJobStateStep]
    rw [if_pos hcode]
    exact ⟨rfl, rfl, rfl, rfl⟩
  · intro env
    obtain ⟨k, hk, hkeq⟩ := cancelJobLoop_take env (List.range 5) none
    exact ⟨k, by simpa using hk, hkeq⟩

/-- Witness for the amended C6: a concrete 404 on an active page state
abandons the job, and a concrete cancelJob run whose first two endpoints
answer 404 attempts exactly the first three distinct endpoints. -/
theorem state_request_403_404_abandons_witness :
    ((loadJobStateStep "job-1" LoadStateReason.poll (LoadOutcome.httpError 404)
        activePageStateW).persistedJobId = none ∧
     (loadJobStateStep "job-1" LoadStateReason.poll (LoadOutcome.httpError 404)
        activePageStateW).trainingState = none ∧
     (loadJobStateStep "job-1" LoadStateReason.poll (LoadOutcome.httpError 404)
        activePageStateW).pollDelayMs = activePageStateW.pollDelayMs ∧
     pollEffectArms
       (loadJobStateStep "job-1" LoadStateReason.poll (LoadOutcome.httpError 404)
          activePageStateW).persistedJobId
       (loadJobStateStep "job-1" LoadStateReason.poll (LoadOutcome.httpError 404)
          activePageStateW).trainingState = false) ∧
    (cancelJobRun cancelEnvW).1 = (List.range 5).take 3 := by
  constructor
  · exact (state_request_403_404_abandons "job-1" LoadStateReason.poll activePageStateW 404
      (Or.inr rfl)).1
  · decide

/-- C7: once the tracked job's state reports is_terminal, the polling
effect arms no new timeout; it arms one only when a non-empty persisted
job id and a non-terminal training state both exist. -/
theorem terminal_stops_polling :
    (∀ p st, st.is_terminal = true → pollEffectArms p (some st) = false) ∧
    (∀ jobId reason s st, st.is_terminal = true →
      pollEffectArms
        (loadJobStateStep jobId reason (LoadOutcome.success st) s).persistedJobId
        (loadJobStateStep jobId reason (LoadOutcome.success st) s).trainingState = false) ∧
    (∀ p t, pollEffectArms p t = true →
      ∃ jid st, p = some jid ∧ jid ≠ "" ∧ t = some st ∧ st.is_terminal = false) := by
  refine ⟨?_, ?_, ?_⟩
  · intro p st hst
    cases p with
    | none => rfl
    | some jid => simp [pollEffectArms, hst]
  · intro jobId reason s st hst
    simp [loadJobStateStep, pollEffectArms, hst]
  · intro p t h
    cases p with
    | none =>
      cases t with
      | none => cases h
      | some st => cases h
    | some jid =>
      cases t with
      | none => cases h
      | some st =>
        by_cases hj : jid = ""
        · simp only [pollEffectArms, hj, if_true, ite_true] at h
          cases h
        · refine ⟨jid, st, rfl, hj, rfl, ?_⟩
          simp only [pollEffectArms, hj, if_false, ite_false] at h
          simpa using h

/-- Witness for C7 at a concrete terminal state. -/
theorem terminal_stops_polling_witness :
    terminalStateW.is_terminal = true ∧
    pollEffectArms (some "job-1") (some terminalStateW) = false :=
  ⟨rfl, terminal_stops_polling.1 (some "job-1") terminalStateW rfl⟩

/-! ## Claim C8: the request interceptor -/

/-- C8: when the stored access token is present and expired at send time,
the request interceptor either refreshes first (an unexpired refresh
token exists and the refresh call succeeds) and sends the request with
the newly obtained access token stored and carried in the Authorization
header, or clears both tokens and rejects the request without sending
it. -/
theorem interceptor_expired_token (expired : String → Bool)
    (refreshCall : String → Option (String × String)) (store : TokenStore)
    (a : String) (ha : presentToken store.access = some a) (hexp : expired a = true) :
    (∀ r, presentToken store.refresh = some r → expired r = false →
      (∀ na nr, refreshCall r = some (na, nr) → na ≠ "" →
        requestInterceptor expired refreshCall store =
          InterceptOutcome.send (some ("Bearer " ++ na)) ⟨some na, some nr⟩) ∧
      (refreshCall r = none →
        requestInterceptor expired refreshCall store =
          InterceptOutcome.reject ⟨none, none⟩)) ∧
    ((presentToken store.refresh = none ∨
        ∃ r, presentToken store.refresh = some r ∧ expired r = true) →
      requestInterceptor expired refreshCall store =
        InterceptOutcome.reject ⟨none, none⟩) := by
  constructor
  · intro r hr hrexp
    constructor
    · intro na nr hcall hna
      simp [requestInterceptor, ha, hexp, hr, hrexp, hcall, bearerOf, hna]
    · intro hcall
      simp [requestInterceptor, ha, hexp, hr, hrexp, hcall]
  · intro hbad
    rcases hbad with hnone | ⟨r, hr, hrexp⟩
    · simp [requestInterceptor, ha, hexp, hnone]
    · simp [requestInterceptor, ha, hexp, hr, hrexp]

/-- Witness for C8: a concrete expired access token with a valid refresh
token is refreshed and the request goes out with the new token. -/
theorem interceptor_expired_token_witness :
    requestInterceptor expiredW refreshCallW storeW =
      InterceptOutcome.send (some ("Bearer " ++ "new-access"))
        ⟨some "new-access", some "new-refresh"⟩ :=
  ((interceptor_expired_token expiredW refreshCallW storeW "expired-access"
      (by decide) (by decide)).1
    "refresh-ok" (by decide) (by decide)).1 "new-access" "new-refresh" rfl (by decide)

/-! ## Claims C9-C10: job-state normalization -/

theorem normalizeProgressPct_bounds (v : Option JsonVal) (q : ℚ)
    (h : normalizeProgressPct v = some q) : 0 ≤ q ∧ q ≤ 100 := by
  unfold normalizeProgressPct at h
  cases hn : asNumberValue v with
  | none => rw [hn] at h; cases h
  | some n =>
    rw [hn] at h
    simp only [Option.some.injEq] at h
    subst h
    constructor
    · exact le_max_left 0 _
    · exact max_le (by norm_num) (min_le_left _ _)

theorem orElse_pct_bounds (a b c d : Option JsonVal) (q : ℚ)
    (h : ((normalizeProgressPct a).orElse (fun _ =>
      (normalizeProgressPct b).orElse (fun _ =>
        (normalizeProgressPct c).orElse (fun _ =>
          normalizeProgressPct d)))) = some q) : 0 ≤ q ∧ q ≤ 100 := by
  cases h1 : normalizeProgressPct a with
  | some q1 =>
    rw [h1] at h
    simp only [Option.orElse] at h
    cases h
    exact normalizeProgressPct_bounds a q h1
  | none =>
    rw [h1] at h
    simp only [Option.orElse] at h
    cases h2 : normalizeProgressPct b with
    | some q2 =>
      rw [h2] at h
      simp only [Option.orElse] at h
      cases h
      exact normalizeProgressPct_bounds b q h2
    | none =>
      rw [h2] at h
      simp only [Option.orElse] at h
      cases h3 : normalizeProgressPct c with
      | some q3 =>
        rw [h3] at h
        simp only [Option.orElse] at h
        cases h
        exact normalizeProgressPct_bounds c q h3
      | none =>
        rw [h3] at h
        simp only [Option.orElse] at h
        exact normalizeProgressPct_bounds d q h

/-- C9: the is_terminal produced by toTrainingJobState equals the
payload's is_terminal field when that field is a boolean, and otherwise
is true exactly when the normalized job status is succeeded, failed or
canceled. -/
theorem is_terminal_normalization (jobId : String) (payload : JsonVal) :
    (∀ b, isBoolField (resolvedIsTerminalField payload) = some b →
      (toTrainingJobState jobId payload).is_terminal = b) ∧
    (isBoolField (resolvedIsTerminalField payload) = none →
      ((toTrainingJobState jobId payload).is_terminal = true ↔
        (toTrainingJobState jobId payload).status = some "succeeded" ∨
        (toTrainingJobState jobId payload).status = some "failed" ∨
        (toTrainingJobState jobId payload).status = some "canceled")) ∧
    (toTrainingJobState jobId payload).status =
      normalizeJobStateStatus (resolvedStatusField payload) := by
  refine ⟨?_, ?_, rfl⟩
  · intro b hb
    simp only [toTrainingJobState]
    rw [hb]
  · intro hb
    simp only [toTrainingJobState]
    rw [hb]
    simp [Bool.or_eq_true, beq_iff_eq, or_assoc]

/-- Witness for C9 at two concrete payloads: one with a boolean
is_terminal field, one falling back to the normalized status. -/
theorem is_terminal_normalization_witness :
    (isBoolField (resolvedIsTerminalField payloadBoolW) = some true ∧
      (toTrainingJobState "j" payloadBoolW).is_terminal = true) ∧
    (isBoolField (resolvedIsTerminalField payloadStatusW) = none ∧
      ((toTrainingJobState "j" payloadStatusW).is_terminal = true ↔
        (toTrainingJobState "j" payloadStatusW).status = some "succeeded" ∨
        (toTrainingJobState "j" payloadStatusW).status = some "failed" ∨
        (toTrainingJobState "j" payloadStatusW).status = some "canceled")) :=
  ⟨⟨rfl, (is_terminal_normalization "j" payloadBoolW).1 true rfl⟩,
   ⟨rfl, (is_terminal_normalization "j" payloadStatusW).2.1 rfl⟩⟩

/-- C10: every normalized progress percentage lies between 0 and 100
inclusive; a parsed numeric value in the unit interval is scaled by 100
before the two-decimal rounding and the clamping; normalizePct computes
the same function; and every progress_pct in a produced TrainingJobState
lies between 0 and 100. -/
theorem progress_pct_bounds :
    (∀ v q, normalizeProgressPct v = some q → 0 ≤ q ∧ q ≤ 100) ∧
    (∀ v n, asNumberValue v = some n → 0 ≤ n → n ≤ 1 →
      normalizeProgressPct v =
        some (max 0 (min 100 ((jsRound (n * 100 * 100) : ℚ) / 100)))) ∧
    (∀ v, normalizePct v = normalizeProgressPct v) ∧
    (∀ jobId payload q, (toTrainingJobState jobId payload).progress_pct = some q →
      0 ≤ q ∧ q ≤ 100) := by
  refine ⟨normalizeProgressPct_bounds, ?_, fun v => rfl, ?_⟩
  · intro v n hn h0 h1
    unfold normalizeProgressPct
    rw [hn]
    simp only [h0, h1, and_self, if_true, ite_true]
  · intro jobId payload q h
    simp only [toTrainingJobState] at h
    exact orElse_pct_bounds _ _ _ _ q h

theorem payloadStatusW_pct :
    (toTrainingJobState "j" payloadStatusW).progress_pct = some 50 := by
  have h : normalizeProgressPct (getProp (stateRecordOf payloadStatusW) "progress_pct") =
      some 50 := by
    have hg : getProp (stateRecordOf payloadStatusW) "progress_pct" =
        some (JsonVal.num (1 / 2)) := by rfl
    rw [hg]
    unfold normalizeProgressPct asNumberValue
    norm_num [jsRound]
  simp only [toTrainingJobState]
  rw [h]
  simp [Option.orElse]

/-- Witness for C10: the fractional input one half is scaled to a
percentage and normalized to 50, inside the bounds. -/
theorem progress_pct_bounds_witness :
    (asNumberValue (some (JsonVal.num (1 / 2))) = some (1 / 2 : ℚ) ∧
      normalizeProgressPct (some (JsonVal.num (1 / 2))) =
        some (max 0 (min 100 ((jsRound ((1 / 2 : ℚ) * 100 * 100) : ℚ) / 100)))) ∧
    ((toTrainingJobState "j" payloadStatusW).progress_pct = some 50 ∧
      0 ≤ (50 : ℚ) ∧ (50 : ℚ) ≤ 100) :=
  ⟨⟨rfl,
    progress_pct_bounds.2.1 (some (JsonVal.num (1 / 2))) (1 / 2) rfl
      (by norm_num) (by norm_num)⟩,
   ⟨payloadStatusW_pct,
    progress_pct_bounds.2.2.2 "j" payloadStatusW 50 payloadStatusW_pct⟩⟩

end RecUI
